import Mathlib

/-!
Verification of the SME financial-health frontend's core glue layer:
the HTTP client wrapper (`request` in `frontend/src/api/client.ts`),
the remote assessment gateway (`frontend/src/api/assessment.ts`),
the local history store (`frontend/src/utils/history.ts`) and the
result orchestration (`fetchData` in `ResultsPage.tsx`).

The TypeScript is shallowly embedded: JSON values are an inductive
type, `fetch` outcomes are explicit data, browser-local storage is a
`StoredValue` describing the persisted string through its JSON parse
status, and the React effect `fetchData` is a pure function from the
three server outcomes and the pre-state of the store to the final
component state.
-/

namespace SME

/-- JSON values, as produced by `JSON.parse` / consumed by
`JSON.stringify`.  Numbers are modelled as integers (no claim in this
development involves a non-integral number).  Objects are field lists
with distinct keys, as actual JavaScript objects have. -/
inductive Json where
  | null
  | bool (b : Bool)
  | num (n : Int)
  | str (s : String)
  | arr (elems : List Json)
  | obj (fields : List (String × Json))

/-- JavaScript property access `j.name` on a parsed JSON value: the
field's value when `j` is an object carrying it, otherwise
`undefined`/absent (`none`). -/
def Json.getField : Json → String → Option Json
  | .obj fields, name => fields.lookup name
  | _, _ => none

/-- JavaScript truthiness of a JSON value (`if (x)`): `null`, `false`,
`0` and `""` are falsy; every other JSON value, arrays and objects
included, is truthy. -/
def jsTruthy : Json → Bool
  | .null => false
  | .bool b => b
  | .num n => n != 0
  | .str s => s != ""
  | .arr _ => true
  | .obj _ => true

/-- String escaping performed by `JSON.stringify` (quote, backslash and
the common control characters; other characters pass through). -/
def escapeChar (c : Char) : String :=
  if c = '"' then "\\\""
  else if c = '\\' then "\\\\"
  else if c = '\n' then "\\n"
  else if c = '\t' then "\\t"
  else if c = '\r' then "\\r"
  else String.singleton c

def escapeString (s : String) : String :=
  s.foldl (fun acc c => acc ++ escapeChar c) ""

mutual

/-- Model of `JSON.stringify` on JSON values. -/
def Json.stringify : Json → String
  | .null => "null"
  | .bool true => "true"
  | .bool false => "false"
  | .num n => toString n
  | .str s => "\"" ++ escapeString s ++ "\""
  | .arr elems => "[" ++ stringifyElems elems ++ "]"
  | .obj fields => "\x7b" ++ stringifyFields fields ++ "\x7d"

def stringifyElems : List Json → String
  | [] => ""
  | [x] => Json.stringify x
  | x :: xs => Json.stringify x ++ "," ++ stringifyElems xs

def stringifyFields : List (String × Json) → String
  | [] => ""
  | [(k, v)] => "\"" ++ escapeString k ++ "\":" ++ Json.stringify v
  | (k, v) :: xs =>
      "\"" ++ escapeString k ++ "\":" ++ Json.stringify v ++ "," ++ stringifyFields xs

end

/-! ### HTTP client wrapper (`frontend/src/api/client.ts`) -/

/-- What `fetch` resolved to: the transport-level response.
`jsonBody` is the result of attempting `response.json()` on the body
(`none` when the body is not valid JSON, in which case `response.json()`
rejects); `textBody` is `response.text()`; `isJsonContentType` records
whether the `content-type` header contains `application/json`. -/
structure Response where
  ok : Bool
  status : Nat
  statusText : String
  isJsonContentType : Bool
  jsonBody : Option Json
  textBody : String

/-- A `fetch(url, config)` call either yields a `Response` or rejects
(network failure) with an error message. -/
inductive FetchOutcome where
  | response (r : Response)
  | networkError (msg : String)

/-- The fallback error message `` `Error ${response.status}: ${response.statusText}` ``. -/
def defaultErrorMessage (r : Response) : String :=
  "Error " ++ toString r.status ++ ": " ++ r.statusText

/-- The error message `request` throws on `!response.ok`:
start from the default; try `await response.json()`; if that succeeds
and `errorData.detail` is truthy, use it — as-is when it is a string,
`JSON.stringify`-ed otherwise.  A body that fails to parse, a missing
`detail`, or a falsy `detail` all keep the default message. -/
def errorMessageOf (r : Response) : String :=
  match r.jsonBody with
  | some errorData =>
      match errorData.getField "detail" with
      | some d =>
          if jsTruthy d then
            match d with
            | .str s => s
            | _ => Json.stringify d
          else defaultErrorMessage r
      | none => defaultErrorMessage r
  | none => defaultErrorMessage r

/-- Function `request` from `client.ts`, as a function of the fetch outcome:
a network failure rethrows; a non-ok response throws an error carrying
`errorMessageOf`; an ok response returns `response.json()` when the
declared content type is JSON (rejecting if the body does not parse) and
`response.text()` otherwise. -/
def request (f : FetchOutcome) : Except String Json :=
  match f with
  | .networkError msg => .error msg
  | .response r =>
      if r.ok then
        if r.isJsonContentType then
          match r.jsonBody with
          | some j => .ok j
          | none => .error "Unexpected end of JSON input"
        else .ok (.str r.textBody)
      else .error (errorMessageOf r)

/-! ### Request construction side of the gateway (`api/assessment.ts`) -/

/-- The options object each gateway operation passes to `request`. -/
structure RequestOptions where
  method : Option String := none
  headers : List (String × String) := []
  hasBody : Bool := false
deriving DecidableEq, Repr

/-- Since `request` builds `headers = {...options.headers}`, it sends the
request with exactly those headers: it adds none of its own. -/
def sentHeaders (o : RequestOptions) : List (String × String) :=
  o.headers

/-- Operation `healthCheck`: `request('/api/health')` — default options, no headers. -/
def healthCheckRequest : String × RequestOptions :=
  ("/api/health", {})

/-- Operation `createAssessment`: POST with the form data as body; no headers are
set (the comment in the source concerns `Content-Type`, but no `Accept`
header is set either). -/
def createAssessmentRequest : String × RequestOptions :=
  ("/api/assessments", { method := some "POST", hasBody := true })

/-- Operation `getAssessment`: GET with an `Accept: application/json` header. -/
def getAssessmentRequest (id : String) : String × RequestOptions :=
  ("/api/assessments/" ++ id,
   { method := some "GET", headers := [("Accept", "application/json")] })

/-- Operation `getAssessmentReport`: GET the report path with
`Accept: application/json`. -/
def getAssessmentReportRequest (id : String) : String × RequestOptions :=
  ("/api/assessments/" ++ id ++ "/report",
   { method := some "GET", headers := [("Accept", "application/json")] })

/-- Operation `getAssessmentAI`: GET the ai path with
`Accept: application/json`. -/
def getAssessmentAIRequest (id : String) : String × RequestOptions :=
  ("/api/assessments/" ++ id ++ "/ai",
   { method := some "GET", headers := [("Accept", "application/json")] })

/-! ### Response processing side of the gateway -/

/-- Expression `x || ''` applied to the envelope field `response.report_md`
(respectively `response.ai_md`).  The declared TypeScript envelope types
are `{ report_md: string }` and `{ ai_md: string }`: the field is a
string when present; an absent field reads as `undefined`, which is
falsy, so the expression yields `''`; the empty string is falsy too and
yields `''`; a non-empty string is truthy and is returned unchanged. -/
def jsStringOrEmpty : Option Json → String
  | some (.str s) => s
  | _ => ""

/-- Operation `getAssessment(id)`: delegates to `request`; the result is the parsed
JSON body returned under a TypeScript cast, with no validation. -/
def getAssessment (f : FetchOutcome) : Except String Json :=
  request f

/-- Operation `getAssessmentReport(id)`: delegates to `request` and returns
`response.report_md || ''`. -/
def getAssessmentReport (f : FetchOutcome) : Except String String :=
  (request f).map (fun j => jsStringOrEmpty (j.getField "report_md"))

/-- Operation `getAssessmentAI(id)`: delegates to `request` and returns
`response.ai_md || ''`. -/
def getAssessmentAI (f : FetchOutcome) : Except String String :=
  (request f).map (fun j => jsStringOrEmpty (j.getField "ai_md"))

/-! ### Local history store (`frontend/src/utils/history.ts`) -/

/-- The `HistoryItem` interface from `types.ts`. -/
structure HistoryItem where
  id : String
  company : String
  industry : String
  created_at : String
deriving DecidableEq, Repr

/-- The value persisted under the single storage key
`sme_assessment_history`, described through its JSON parse status:
`absent` when `localStorage.getItem` returns `null` (this also covers
the falsy empty string), `corrupt raw` when a string is present but
`JSON.parse` throws on it, `parsed j` when it parses to `j`. -/
inductive StoredValue where
  | absent
  | corrupt (raw : String)
  | parsed (j : Json)

/-- Operation `getHistory`: `stored ? JSON.parse(stored) : []` under a
`try`/`catch` that logs and returns `[]`.  An absent (or empty, hence
falsy) stored string yields `[]`; an unparseable string throws inside
the `try` and yields `[]`; a parseable string yields its parse,
whatever shape it has — no validation is performed. -/
def getHistory : StoredValue → Json
  | .absent => .arr []
  | .corrupt _ => .arr []
  | .parsed j => j

/-- Shape observation: is a JSON value JavaScript `null`?  Property
access such as `h.id` on `null` throws a TypeError. -/
def Json.isNull : Json → Bool
  | .null => true
  | _ => false

/-- JavaScript strict inequality `x !== y` between two values produced
by independent `JSON.parse` results (a persisted entry's `id` field on
the left, the inserted item's `id` on the right), each possibly
`undefined` (`none`): primitives compare by value, `undefined !==
undefined` and `null !== null` are false, values of different types
are strictly unequal, and two objects or arrays from independent
parses are distinct references, hence strictly unequal. -/
def jsStrictNeq : Option Json → Option Json → Bool
  | none, none => false
  | some .null, some .null => false
  | some (.bool x), some (.bool y) => x != y
  | some (.num x), some (.num y) => x != y
  | some (.str x), some (.str y) => x != y
  | _, _ => true

/-- The callback `(h) => h.id !== item.id` of `addToHistory`'s
`current.filter`, evaluated as JavaScript on one element `h` of the
parsed list: reading `h.id` throws a TypeError when `h` is `null`
(modelled `none`; parsed JSON cannot contain `undefined`), and on any
other value yields the `id` field's value or `undefined`, compared
strictly against the inserted item's `id` value. -/
def idNeqCallback (itemId : Option Json) (h : Json) : Option Bool :=
  if h.isNull then none
  else some (jsStrictNeq (h.getField "id") itemId)

/-- JavaScript `Array.prototype.filter` with a callback that may throw:
a callback throw aborts the whole call (`none`); otherwise the elements
the callback accepted are kept in order. -/
def jsFilter (f : Json → Option Bool) : List Json → Option (List Json)
  | [] => some []
  | h :: rest =>
      match f h with
      | none => none
      | some b =>
          match jsFilter f rest with
          | none => none
          | some kept => some (if b then h :: kept else kept)

/-- The JavaScript summary object passed to `addToHistory`: each field
holds a JSON value or `undefined` (`none`). -/
structure JsSummary where
  id : Option Json
  company : Option Json
  industry : Option Json
  created_at : Option Json

/-- The summary object denoted by a typed `HistoryItem` — all four
fields present strings, as `types.ts` declares them. -/
def toJsSummary (it : HistoryItem) : JsSummary :=
  { id := some (.str it.id), company := some (.str it.company),
    industry := some (.str it.industry),
    created_at := some (.str it.created_at) }

/-- What persisting the summary object writes (re-parsed):
`JSON.stringify` keeps the keys in literal order — `id`, `company`,
`industry`, `created_at` — and omits keys whose value is `undefined`. -/
def encodeJsSummary (it : JsSummary) : Json :=
  .obj (List.filterMap (fun p => Option.map (fun v => (p.1, v)) p.2)
    [("id", it.id), ("company", it.company),
     ("industry", it.industry), ("created_at", it.created_at)])

/-- The object literal `{ id, company, industry, created_at }` built
from a typed `HistoryItem` — the shape `addToHistory` persists for
well-formed summaries (all four keys present, string-valued). -/
def encodeItem (it : HistoryItem) : Json :=
  .obj [("id", .str it.id), ("company", .str it.company),
        ("industry", .str it.industry), ("created_at", .str it.created_at)]

/-- Operation `addToHistory(item)` on an arbitrary summary object: read
the current value, then `current.filter((h) => h.id !== item.id)` —
this throws a TypeError when `current` is not an array (`filter` is not
a function) or when an element is `null` (`h.id` on `null`), both
modelled by `none`.  Otherwise prepend the item and persist the whole
list with `JSON.stringify`, whose output re-parses to the same JSON
array with `undefined`-valued keys omitted, so the new stored value is
`parsed` of the new array. -/
def addToHistoryJs (item : JsSummary) (s : StoredValue) : Option StoredValue :=
  match getHistory s with
  | .arr current =>
      match jsFilter (idNeqCallback item.id) current with
      | some kept => some (.parsed (.arr (encodeJsSummary item :: kept)))
      | none => none
  | _ => none

/-- Operation `addToHistory` at its declared TypeScript interface
(`item: HistoryItem`): the same code, entered with a summary whose four
fields are present strings. -/
def addToHistory (item : HistoryItem) (s : StoredValue) : Option StoredValue :=
  addToHistoryJs (toJsSummary item) s

/-- Operation `clearHistory`: `localStorage.removeItem(HISTORY_KEY)`. -/
def clearHistory (_ : StoredValue) : StoredValue :=
  .absent

/-- Shape observation: is a JSON value an array? -/
def Json.isArr : Json → Bool
  | .arr _ => true
  | _ => false

/-! ### Result orchestration (`fetchData` in `ResultsPage.tsx`) -/

/-- The three server outcomes the orchestration for one assessment id
depends on: the `fetch` results of `GET /api/assessments/{id}`,
`GET /api/assessments/{id}/report` and `GET /api/assessments/{id}/ai`. -/
structure ServerOutcomes where
  assessment : FetchOutcome
  report : FetchOutcome
  ai : FetchOutcome

/-- The component state `fetchData` leaves behind: the `data`,
`reportMd`, `aiMd`, `error` and `loading` React states, plus the
post-state of the persisted history. -/
structure FetchState where
  data : Option Json
  reportMd : String
  aiMd : String
  error : Option String
  loading : Bool
  history : StoredValue

/-- Guard `.catch(err => '')` around an auxiliary fetch: a resolution passes
through, a rejection becomes the empty string. -/
def guardText : Except String String → String
  | .ok s => s
  | .error _ => ""

/-- JS evaluation of the object literal `{ id: assessment.id,
company: assessment.company, industry: assessment.industry,
created_at: assessment.created_at }` built by `fetchData`: property
access on a `null` record throws a TypeError (`none`, caught by the
surrounding `catch`); on any other JSON value each field reads as the
record's field value or `undefined`. -/
def jsSummaryOf (a : Json) : Option JsSummary :=
  if a.isNull then none
  else some { id := a.getField "id", company := a.getField "company",
              industry := a.getField "industry",
              created_at := a.getField "created_at" }

/-- Effect body `fetchData` from `ResultsPage.tsx`, as a function of the three
server outcomes and the pre-state of the history store.
The canonical record is fetched first; a failure there is caught, sets
`error` to `err.message || 'Failed to load assessment results.'` and
leaves everything else untouched.  On success the two auxiliary fetches
are joined with `Promise.all`, each individually guarded by
`.catch(err => '')`, and the three data states are set.  Building the
summary object then throws on a `null` record (`assessment.id`), and
`addToHistory` throws when the persisted value parsed to a non-array or
to a list with a `null` element; either TypeError is caught after the
data states were already set, so `error` gets the engine's TypeError
message — non-empty, its exact text engine-specific and modelled by a
placeholder no theorem depends on — and the store stays unchanged.
Otherwise the summary is inserted and no error is set. -/
def fetchData (sv : ServerOutcomes) (store : StoredValue) : FetchState :=
  match getAssessment sv.assessment with
  | .error e =>
      { data := none, reportMd := "", aiMd := "",
        error := some (if e = "" then "Failed to load assessment results." else e),
        loading := false, history := store }
  | .ok assessment =>
      let report := guardText (getAssessmentReport sv.report)
      let ai := guardText (getAssessmentAI sv.ai)
      match jsSummaryOf assessment with
      | none =>
          { data := some assessment, reportMd := report, aiMd := ai,
            error := some "TypeError", loading := false, history := store }
      | some item =>
          match addToHistoryJs item store with
          | some newStore =>
              { data := some assessment, reportMd := report, aiMd := ai,
                error := none, loading := false, history := newStore }
          | none =>
              { data := some assessment, reportMd := report, aiMd := ai,
                error := some "TypeError", loading := false, history := store }

/-- Inserting a whole list of summaries in order (the iteration in
the round-trip property), stopping at the first thrown insertion. -/
def insertAll (items : List HistoryItem) (s : StoredValue) : Option StoredValue :=
  match items with
  | [] => some s
  | it :: rest =>
      match addToHistory it s with
      | some next => insertAll rest next
      | none => none

/-- A successful HTTP response declaring a JSON content type and
carrying the JSON body `j`. -/
def okJsonResponse (j : Json) : FetchOutcome :=
  .response { ok := true, status := 200, statusText := "OK",
              isJsonContentType := true, jsonBody := some j,
              textBody := Json.stringify j }

/-- A 400 response whose JSON body carries a `detail` field holding the
empty string — a falsy value. -/
def respDetailEmptyStr : Response :=
  { ok := false, status := 400, statusText := "Bad Request",
    isJsonContentType := true,
    jsonBody := some (.obj [("detail", .str "")]),
    textBody := "" }

/-- A full, well-formed assessment record body. -/
def sampleRecordJson : Json :=
  .obj [("id", .str "a1"), ("company", .str "Acme"),
        ("industry", .str "Tech"), ("lang", .str "en"),
        ("created_at", .str "2024-05-01"), ("result_json", .obj [])]

/-- Server outcomes where all three fetches succeed but the report
envelope carries an empty `report_md`. -/
def svEmptyReport : ServerOutcomes :=
  { assessment := okJsonResponse sampleRecordJson,
    report := okJsonResponse (.obj [("id", .str "a1"), ("report_md", .str "")]),
    ai := okJsonResponse (.obj [("id", .str "a1"), ("ai_md", .str "AI text")]) }

/-- Does a JSON value carry an `id` field equal to the given string? -/
def hasIdStr (h : Json) (i : String) : Bool :=
  match h.getField "id" with
  | some (.str v) => v == i
  | _ => false

/-- A 404 response whose JSON body carries `detail: "not found"`. -/
def resp404 : Response :=
  { ok := false, status := 404, statusText := "Not Found",
    isJsonContentType := true,
    jsonBody := some (.obj [("detail", .str "not found")]),
    textBody := "" }

/-- Server outcomes where the canonical fetch 404s. -/
def sv404 : ServerOutcomes :=
  { assessment := .response resp404,
    report := .networkError "net down",
    ai := .networkError "net down" }

/-- Server outcomes where the canonical fetch succeeds, the report fetch
rejects with a network error and the AI fetch succeeds. -/
def svReportFails : ServerOutcomes :=
  { assessment := okJsonResponse sampleRecordJson,
    report := .networkError "network error",
    ai := okJsonResponse (.obj [("id", .str "a1"), ("ai_md", .str "AI text")]) }

/-- Server outcomes where all three fetches succeed with non-empty
texts. -/
def svAllOk : ServerOutcomes :=
  { assessment := okJsonResponse sampleRecordJson,
    report := okJsonResponse (.obj [("id", .str "a1"), ("report_md", .str "Report text")]),
    ai := okJsonResponse (.obj [("id", .str "a1"), ("ai_md", .str "AI text")]) }

/-- A pre-populated store already holding an entry for id `a1`. -/
def oldStore : StoredValue :=
  .parsed (.arr [encodeItem ⟨"a1", "Old Co", "Tech", "2024-01-01"⟩])

/-! ## Helper lemmas -/

theorem getField_encodeItem_id (it : HistoryItem) :
    (encodeItem it).getField "id" = some (.str it.id) := rfl

/-- Persisting a typed summary writes all four keys: the stringify of
the general summary object specializes to the four-field encoding. -/
theorem encodeJsSummary_toJsSummary (it : HistoryItem) :
    encodeJsSummary (toJsSummary it) = encodeItem it := rfl

/-- On an encoded (hence non-null, string-id) entry the filter callback
never throws and compares the two id strings. -/
theorem idNeqCallback_encodeItem (a : HistoryItem) (i : String) :
    idNeqCallback (some (.str i)) (encodeItem a) = some (a.id != i) := rfl

/-- Filtering encoded history items by the JavaScript id comparison
never throws, and is filtering the items by id and encoding after. -/
theorem jsFilter_map_encodeItem (xs : List HistoryItem) (i : String) :
    jsFilter (idNeqCallback (some (.str i))) (xs.map encodeItem) =
      some ((xs.filter (fun h => h.id != i)).map encodeItem) := by
  induction xs with
  | nil => rfl
  | cons a t ih =>
      simp only [List.map_cons, jsFilter, idNeqCallback_encodeItem, ih, List.filter_cons]
      by_cases hai : a.id = i
      · simp [hai]
      · simp [hai]

/-- Inserting a typed summary into a persisted list of encoded
summaries succeeds and follows the filter-then-prepend description. -/
theorem addToHistory_encoded (item : HistoryItem) (xs : List HistoryItem) :
    addToHistory item (.parsed (.arr (xs.map encodeItem))) =
      some (.parsed (.arr
        ((item :: xs.filter (fun h => h.id != item.id)).map encodeItem))) := by
  simp only [addToHistory, addToHistoryJs, getHistory, toJsSummary,
    jsFilter_map_encodeItem, encodeJsSummary_toJsSummary, List.map_cons]
  rfl

/-- A value with a readable field is not `null`. -/
theorem isNull_false_of_getField (a : Json) (name : String) (v : Json)
    (h : a.getField name = some v) : a.isNull = false := by
  cases a <;> simp_all [Json.getField, Json.isNull]

/-- Over a parsed list with no `null` element the filter callback never
throws, so the JavaScript filter is an ordinary filter. -/
theorem jsFilter_of_no_null (itemId : Option Json) (xs : List Json)
    (hxs : xs.all (fun h => !h.isNull) = true) :
    jsFilter (idNeqCallback itemId) xs =
      some (xs.filter (fun h => jsStrictNeq (h.getField "id") itemId)) := by
  induction xs with
  | nil => rfl
  | cons h t ih =>
      rw [List.all_cons, Bool.and_eq_true] at hxs
      obtain ⟨hh, ht⟩ := hxs
      have hh' : h.isNull = false := by
        cases hn : h.isNull
        · rfl
        · rw [hn] at hh
          simp at hh
      simp only [jsFilter, idNeqCallback, hh', ih ht, List.filter_cons]
      by_cases hb : jsStrictNeq (h.getField "id") itemId = true
      · simp [hb]
      · simp [hb]

/-! ## Claims -/

/-- C5: a persisted history value that is absent or that does not parse
as JSON makes `getHistory` return the empty list without throwing, and
an `addToHistory` performed on that state succeeds and behaves as an
insert into an empty history. -/
theorem C5_corrupt_read_empty_insert_ok (s : StoredValue) (item : HistoryItem)
    (h : s = .absent ∨ ∃ raw, s = .corrupt raw) :
    getHistory s = .arr [] ∧
    addToHistory item s = some (.parsed (.arr [encodeItem item])) := by
  rcases h with rfl | ⟨raw, rfl⟩ <;> exact ⟨rfl, rfl⟩

theorem C5_witness :
    ((StoredValue.corrupt "oops[") = StoredValue.absent ∨
      ∃ raw, (StoredValue.corrupt "oops[") = StoredValue.corrupt raw) ∧
    (getHistory (.corrupt "oops[") = .arr [] ∧
      addToHistory ⟨"a1", "Acme", "Retail", "2024-05-01"⟩ (.corrupt "oops[") =
        some (.parsed (.arr [encodeItem ⟨"a1", "Acme", "Retail", "2024-05-01"⟩]))) :=
  ⟨Or.inr ⟨"oops[", rfl⟩,
   C5_corrupt_read_empty_insert_ok _ _ (Or.inr ⟨"oops[", rfl⟩)⟩

/-- C6: inserting a summary into a history list with no duplicate ids
yields the persisted list `s :: (old entries with a different id)`:
it still has no duplicate ids, exactly one entry carries `s.id`, that
entry is `s` itself (fields updated), and it sits at the front. -/
theorem C6_insert_dedup_front (xs : List HistoryItem) (s : HistoryItem)
    (hnd : (xs.map HistoryItem.id).Nodup) :
    addToHistory s (.parsed (.arr (xs.map encodeItem))) =
      some (.parsed (.arr ((s :: xs.filter (fun h => h.id != s.id)).map encodeItem))) ∧
    ((s :: xs.filter (fun h => h.id != s.id)).map HistoryItem.id).Nodup ∧
    (s :: xs.filter (fun h => h.id != s.id)).countP (fun h => h.id == s.id) = 1 ∧
    (s :: xs.filter (fun h => h.id != s.id)).head? = some s := by
  refine ⟨?_, ?_, ?_, rfl⟩
  · exact addToHistory_encoded s xs
  · simp only [List.map_cons, List.nodup_cons]
    constructor
    · intro hmem
      obtain ⟨a, ha, haid⟩ := List.mem_map.mp hmem
      have hkeep := (List.mem_filter.mp ha).2
      rw [haid] at hkeep
      simp at hkeep
    · exact hnd.sublist ((List.filter_sublist xs).map HistoryItem.id)
  · rw [List.countP_cons]
    have h0 : (xs.filter (fun h => h.id != s.id)).countP (fun h => h.id == s.id) = 0 := by
      rw [List.countP_eq_zero]
      intro a ha
      have hkeep := (List.mem_filter.mp ha).2
      simp only [bne_iff_ne, ne_eq] at hkeep
      simp [hkeep]
    simp [h0]

theorem C6_witness :
    ((([⟨"a", "X", "Tech", "d1"⟩] : List HistoryItem).map HistoryItem.id).Nodup) ∧
    (addToHistory ⟨"a", "Y", "Tech", "d2"⟩
        (.parsed (.arr (([⟨"a", "X", "Tech", "d1"⟩] : List HistoryItem).map encodeItem))) =
      some (.parsed (.arr
        (((⟨"a", "Y", "Tech", "d2"⟩ : HistoryItem) ::
            ([⟨"a", "X", "Tech", "d1"⟩] : List HistoryItem).filter
              (fun h => h.id != "a")).map encodeItem))) ∧
      (((⟨"a", "Y", "Tech", "d2"⟩ : HistoryItem) ::
          ([⟨"a", "X", "Tech", "d1"⟩] : List HistoryItem).filter
            (fun h => h.id != "a")).map HistoryItem.id).Nodup ∧
      ((⟨"a", "Y", "Tech", "d2"⟩ : HistoryItem) ::
          ([⟨"a", "X", "Tech", "d1"⟩] : List HistoryItem).filter
            (fun h => h.id != "a")).countP (fun h => h.id == "a") = 1 ∧
      ((⟨"a", "Y", "Tech", "d2"⟩ : HistoryItem) ::
          ([⟨"a", "X", "Tech", "d1"⟩] : List HistoryItem).filter
            (fun h => h.id != "a")).head? = some ⟨"a", "Y", "Tech", "d2"⟩) :=
  ⟨by decide,
   C6_insert_dedup_front [⟨"a", "X", "Tech", "d1"⟩] ⟨"a", "Y", "Tech", "d2"⟩ (by decide)⟩

/-- C10: `getHistory` performs no shape validation — any persisted value
that parses as JSON is returned as-is, for example the JSON number 42,
which is not a list at all. -/
theorem C10_read_no_validation :
    (∀ j : Json, getHistory (.parsed j) = j) ∧
    getHistory (.parsed (.num 42)) = .num 42 ∧
    (getHistory (.parsed (.num 42))).isArr = false :=
  ⟨fun _ => rfl, rfl, rfl⟩

/-- The id filter keeps a whole list none of whose entries carry the
filtered id. -/
theorem filter_eq_self_of_id_notMem (acc : List HistoryItem) (i : String)
    (h : i ∉ acc.map HistoryItem.id) :
    acc.filter (fun a => a.id != i) = acc := by
  apply List.filter_eq_self.mpr
  intro a ha
  simp only [bne_iff_ne, ne_eq]
  intro hai
  exact h (List.mem_map.mpr ⟨a, ha, hai⟩)

/-- Inserting summaries one by one on top of an already-persisted list,
when no id repeats anywhere, stacks them in reverse order in front. -/
theorem insertAll_from_arr (items : List HistoryItem) :
    ∀ acc : List HistoryItem,
      (items.map HistoryItem.id ++ acc.map HistoryItem.id).Nodup →
      insertAll items (.parsed (.arr (acc.map encodeItem))) =
        some (.parsed (.arr ((items.reverse ++ acc).map encodeItem))) := by
  induction items with
  | nil => intro acc _; simp [insertAll]
  | cons it rest ih =>
      intro acc h
      simp only [List.map_cons, List.cons_append, List.nodup_cons] at h
      obtain ⟨hnotmem, hnd⟩ := h
      have hnotacc : it.id ∉ acc.map HistoryItem.id := fun hm =>
        hnotmem (List.mem_append.mpr (Or.inr hm))
      have step : addToHistory it (.parsed (.arr (acc.map encodeItem))) =
          some (.parsed (.arr ((it :: acc).map encodeItem))) := by
        rw [addToHistory_encoded it acc,
          filter_eq_self_of_id_notMem acc it.id hnotacc]
      have h' : (rest.map HistoryItem.id ++ (it :: acc).map HistoryItem.id).Nodup := by
        simp only [List.map_cons]
        exact List.perm_middle.symm.nodup (List.nodup_cons.mpr ⟨hnotmem, hnd⟩)
      rw [insertAll, step]
      show insertAll rest (.parsed (.arr ((it :: acc).map encodeItem))) = _
      rw [ih (it :: acc) h']
      simp [List.reverse_cons, List.append_assoc]

/-- C7: inserting N summaries with pairwise-distinct ids into an empty
store and reading back yields exactly those N summaries, encoded, in
reverse insertion order, with no duplicate ids. -/
theorem C7_roundtrip (items : List HistoryItem)
    (h : (items.map HistoryItem.id).Nodup) :
    ∃ s', insertAll items .absent = some s' ∧
      getHistory s' = .arr (items.reverse.map encodeItem) ∧
      (items.reverse.map HistoryItem.id).Nodup := by
  have hrev : (items.reverse.map HistoryItem.id).Nodup := by
    rw [List.map_reverse, List.nodup_reverse]
    exact h
  cases items with
  | nil => exact ⟨.absent, rfl, rfl, hrev⟩
  | cons it rest =>
      have step : addToHistory it .absent = some (.parsed (.arr [encodeItem it])) := rfl
      have hnd : (rest.map HistoryItem.id ++
          ([it] : List HistoryItem).map HistoryItem.id).Nodup := by
        simp only [List.map_cons, List.map_nil]
        refine (List.perm_append_singleton it.id (rest.map HistoryItem.id)).symm.nodup ?_
        simpa using h
      have key := insertAll_from_arr rest [it] hnd
      refine ⟨.parsed (.arr ((rest.reverse ++ [it]).map encodeItem)), ?_, ?_, hrev⟩
      · rw [insertAll, step]
        exact key
      · simp [getHistory, List.reverse_cons]

/-- A JSON value kept by the JavaScript id filter does not satisfy the
id test for the filtered id. -/
theorem hasIdStr_false_of_jsStrictNeq (h : Json) (i : String)
    (hk : jsStrictNeq (h.getField "id") (some (.str i)) = true) :
    hasIdStr h i = false := by
  unfold hasIdStr
  cases hv : h.getField "id" with
  | none => rfl
  | some v =>
      rw [hv] at hk
      cases v <;> simp_all [jsStrictNeq]

/-- C4 counterexample: a non-success response whose JSON body carries a
`detail` field holding the empty string — a string, which the claim says
is used as-is as the error message — actually produces the fallback
message `"Error 400: Bad Request"`, because the code tests `detail` for
truthiness and the empty string is falsy. -/
theorem C4_counterexample :
    respDetailEmptyStr.ok = false ∧
    respDetailEmptyStr.jsonBody = some (.obj [("detail", .str "")]) ∧
    request (.response respDetailEmptyStr) = .error "Error 400: Bad Request" ∧
    (("Error 400: Bad Request" : String) == "") = false :=
  ⟨rfl, rfl, rfl, rfl⟩

/-- C4 (amended): on a non-success status, `request` always fails with
the error message computed from the response: the `detail` field of a
JSON body when it is present and truthy (used as-is if a string,
JSON-stringified otherwise), and `"Error <status>: <statusText>"` in
every other case — non-JSON body, missing `detail`, or falsy `detail`
(such as an empty string). -/
theorem C4_request_error_message (r : Response) (hok : r.ok = false) :
    request (.response r) = .error (errorMessageOf r) ∧
    (∀ j s, r.jsonBody = some j → j.getField "detail" = some (.str s) → s ≠ "" →
      errorMessageOf r = s) ∧
    (∀ j d, r.jsonBody = some j → j.getField "detail" = some d → jsTruthy d = true →
      (∀ s, d ≠ .str s) → errorMessageOf r = Json.stringify d) ∧
    (r.jsonBody = none → errorMessageOf r = defaultErrorMessage r) ∧
    (∀ j, r.jsonBody = some j → j.getField "detail" = none →
      errorMessageOf r = defaultErrorMessage r) ∧
    (∀ j d, r.jsonBody = some j → j.getField "detail" = some d → jsTruthy d = false →
      errorMessageOf r = defaultErrorMessage r) := by
  refine ⟨by simp [request, hok], ?_, ?_, ?_, ?_, ?_⟩
  · intro j s hj hd hs
    simp [errorMessageOf, hj, hd, jsTruthy, hs]
  · intro j d hj hd htr hns
    cases d with
    | str s => exact absurd rfl (hns s)
    | null => simp [jsTruthy] at htr
    | bool b =>
        cases b with
        | false => simp [jsTruthy] at htr
        | true => simp [errorMessageOf, hj, hd, jsTruthy]
    | num n =>
        simp [errorMessageOf, hj, hd, jsTruthy]
        intro h0
        rw [h0] at htr
        simp [jsTruthy] at htr
    | arr elems => simp [errorMessageOf, hj, hd, jsTruthy]
    | obj fields => simp [errorMessageOf, hj, hd, jsTruthy]
  · intro hj
    simp [errorMessageOf, hj]
  · intro j hj hd
    simp [errorMessageOf, hj, hd]
  · intro j d hj hd hf
    simp [errorMessageOf, hj, hd, hf]

theorem C4_witness :
    respDetailEmptyStr.ok = false ∧
    (request (.response respDetailEmptyStr) = .error (errorMessageOf respDetailEmptyStr) ∧
     (∀ j s, respDetailEmptyStr.jsonBody = some j →
        j.getField "detail" = some (.str s) → s ≠ "" →
        errorMessageOf respDetailEmptyStr = s) ∧
     (∀ j d, respDetailEmptyStr.jsonBody = some j →
        j.getField "detail" = some d → jsTruthy d = true →
        (∀ s, d ≠ .str s) → errorMessageOf respDetailEmptyStr = Json.stringify d) ∧
     (respDetailEmptyStr.jsonBody = none →
        errorMessageOf respDetailEmptyStr = defaultErrorMessage respDetailEmptyStr) ∧
     (∀ j, respDetailEmptyStr.jsonBody = some j → j.getField "detail" = none →
        errorMessageOf respDetailEmptyStr = defaultErrorMessage respDetailEmptyStr) ∧
     (∀ j d, respDetailEmptyStr.jsonBody = some j →
        j.getField "detail" = some d → jsTruthy d = false →
        errorMessageOf respDetailEmptyStr = defaultErrorMessage respDetailEmptyStr)) :=
  ⟨rfl, C4_request_error_message respDetailEmptyStr rfl⟩

/-- C9 counterexample: `healthCheck` and `createAssessment` pass no
headers at all to `request`, and `request` adds none, so neither sends
an `Accept: application/json` header. -/
theorem C9_counterexample :
    sentHeaders healthCheckRequest.2 = [] ∧
    (sentHeaders healthCheckRequest.2).any (fun p => p.1 == "Accept") = false ∧
    sentHeaders createAssessmentRequest.2 = [] ∧
    (sentHeaders createAssessmentRequest.2).any (fun p => p.1 == "Accept") = false :=
  ⟨rfl, rfl, rfl, rfl⟩

/-- C9 (amended): of the five gateway operations, the three
per-assessment GETs (`getAssessment`, `getAssessmentReport`,
`getAssessmentAI`) send `Accept: application/json`, while `healthCheck`
and `createAssessment` send no headers at all. -/
theorem C9_accept_headers (id : String) :
    ("Accept", "application/json") ∈ sentHeaders (getAssessmentRequest id).2 ∧
    ("Accept", "application/json") ∈ sentHeaders (getAssessmentReportRequest id).2 ∧
    ("Accept", "application/json") ∈ sentHeaders (getAssessmentAIRequest id).2 ∧
    sentHeaders healthCheckRequest.2 = [] ∧
    sentHeaders createAssessmentRequest.2 = [] := by
  refine ⟨?_, ?_, ?_, rfl, rfl⟩ <;>
    simp [sentHeaders, getAssessmentRequest, getAssessmentReportRequest,
      getAssessmentAIRequest]

theorem C9_witness :
    ("Accept", "application/json") ∈ sentHeaders (getAssessmentRequest "a1").2 ∧
    ("Accept", "application/json") ∈ sentHeaders (getAssessmentReportRequest "a1").2 ∧
    ("Accept", "application/json") ∈ sentHeaders (getAssessmentAIRequest "a1").2 ∧
    sentHeaders healthCheckRequest.2 = [] ∧
    sentHeaders createAssessmentRequest.2 = [] :=
  C9_accept_headers "a1"

/-- C8: over a successful JSON response, the two text operations
normalize the envelope field: an absent `report_md`/`ai_md` yields the
empty string, a present-but-empty field yields the empty string, and a
non-empty string field is returned unchanged — never a missing-field
error. -/
theorem C8_text_normalization (ja je jn ka ke kn : Json) (s t : String)
    (hja : ja.getField "report_md" = none)
    (hje : je.getField "report_md" = some (.str ""))
    (hs : s ≠ "")
    (hjn : jn.getField "report_md" = some (.str s))
    (hka : ka.getField "ai_md" = none)
    (hke : ke.getField "ai_md" = some (.str ""))
    (ht : t ≠ "")
    (hkn : kn.getField "ai_md" = some (.str t)) :
    getAssessmentReport (okJsonResponse ja) = .ok "" ∧
    getAssessmentReport (okJsonResponse je) = .ok "" ∧
    getAssessmentReport (okJsonResponse jn) = .ok s ∧
    getAssessmentAI (okJsonResponse ka) = .ok "" ∧
    getAssessmentAI (okJsonResponse ke) = .ok "" ∧
    getAssessmentAI (okJsonResponse kn) = .ok t := by
  refine ⟨?_, ?_, ?_, ?_, ?_, ?_⟩ <;>
    simp [getAssessmentReport, getAssessmentAI, request, okJsonResponse,
      jsStringOrEmpty, Except.map, hja, hje, hjn, hka, hke, hkn]

theorem C8_witness :
    ((Json.obj []).getField "report_md" = none ∧
     (Json.obj [("report_md", .str "")]).getField "report_md" = some (.str "") ∧
     ("R" : String) ≠ "" ∧
     (Json.obj [("report_md", .str "R")]).getField "report_md" = some (.str "R") ∧
     (Json.obj []).getField "ai_md" = none ∧
     (Json.obj [("ai_md", .str "")]).getField "ai_md" = some (.str "") ∧
     ("A" : String) ≠ "" ∧
     (Json.obj [("ai_md", .str "A")]).getField "ai_md" = some (.str "A")) ∧
    (getAssessmentReport (okJsonResponse (.obj [])) = .ok "" ∧
     getAssessmentReport (okJsonResponse (.obj [("report_md", .str "")])) = .ok "" ∧
     getAssessmentReport (okJsonResponse (.obj [("report_md", .str "R")])) = .ok "R" ∧
     getAssessmentAI (okJsonResponse (.obj [])) = .ok "" ∧
     getAssessmentAI (okJsonResponse (.obj [("ai_md", .str "")])) = .ok "" ∧
     getAssessmentAI (okJsonResponse (.obj [("ai_md", .str "A")])) = .ok "A") :=
  ⟨⟨rfl, rfl, by decide, rfl, rfl, rfl, by decide, rfl⟩,
   C8_text_normalization (.obj []) (.obj [("report_md", .str "")])
     (.obj [("report_md", .str "R")]) (.obj []) (.obj [("ai_md", .str "")])
     (.obj [("ai_md", .str "A")]) "R" "A"
     rfl rfl (by decide) rfl rfl rfl (by decide) rfl⟩

theorem C7_witness :
    ((([⟨"a1", "Acme", "Tech", "d1"⟩, ⟨"a2", "Beta", "Food", "d2"⟩] :
        List HistoryItem).map HistoryItem.id).Nodup) ∧
    (∃ s', insertAll
        [⟨"a1", "Acme", "Tech", "d1"⟩, ⟨"a2", "Beta", "Food", "d2"⟩] .absent = some s' ∧
      getHistory s' = .arr
        (([⟨"a1", "Acme", "Tech", "d1"⟩, ⟨"a2", "Beta", "Food", "d2"⟩] :
            List HistoryItem).reverse.map encodeItem) ∧
      ((([⟨"a1", "Acme", "Tech", "d1"⟩, ⟨"a2", "Beta", "Food", "d2"⟩] :
          List HistoryItem).reverse.map HistoryItem.id).Nodup)) :=
  ⟨by decide,
   C7_roundtrip [⟨"a1", "Acme", "Tech", "d1"⟩, ⟨"a2", "Beta", "Food", "d2"⟩] (by decide)⟩

/-- C2: when the canonical fetch fails, the orchestration terminates in
an error state carrying the failure message — on a 404 whose JSON body
carries a (non-empty) string `detail`, exactly that detail text — while
`data` stays unset and the history store is left completely unchanged:
`addToHistory` is never invoked. -/
theorem C2_canonical_failure (sv : ServerOutcomes) (store : StoredValue) (e : String)
    (hfail : getAssessment sv.assessment = .error e) :
    (fetchData sv store).history = store ∧
    (fetchData sv store).data = none ∧
    (fetchData sv store).error =
      some (if e = "" then "Failed to load assessment results." else e) ∧
    (∀ r j d, sv.assessment = .response r → r.ok = false → r.jsonBody = some j →
      j.getField "detail" = some (.str d) → d ≠ "" →
      (fetchData sv store).error = some d) := by
  have hred : fetchData sv store =
      { data := none, reportMd := "", aiMd := "",
        error := some (if e = "" then "Failed to load assessment results." else e),
        loading := false, history := store } := by
    unfold fetchData
    rw [hfail]
  refine ⟨by rw [hred], by rw [hred], by rw [hred], ?_⟩
  intro r j d hr hok hj hd hne
  have hmsg : getAssessment sv.assessment = .error d := by
    rw [hr]
    simp [getAssessment, request, hok, errorMessageOf, hj, hd, jsTruthy, hne]
  rw [hfail] at hmsg
  have hed : e = d := by injection hmsg
  rw [hred]
  simp [hed, hne]

theorem C2_witness :
    getAssessment sv404.assessment = .error "not found" ∧
    ((fetchData sv404 oldStore).history = oldStore ∧
     (fetchData sv404 oldStore).data = none ∧
     (fetchData sv404 oldStore).error =
       some (if "not found" = "" then "Failed to load assessment results."
             else "not found") ∧
     (∀ r j d, sv404.assessment = .response r → r.ok = false → r.jsonBody = some j →
        j.getField "detail" = some (.str d) → d ≠ "" →
        (fetchData sv404 oldStore).error = some d)) :=
  ⟨rfl, C2_canonical_failure sv404 oldStore "not found" rfl⟩

/-- On a canonical success delivering a summary-shaped record (the four
summary fields present as strings, the shape the page is typed against)
over a persisted list with no `null` element, `fetchData` reaches the
success state: per-slot guarded texts, no error, and the encoded
summary prepended past the id-filtered old entries. -/
theorem fetchData_success (sv : ServerOutcomes) (store : StoredValue) (a : Json)
    (rid comp ind ca : String) (xs : List Json)
    (hok : getAssessment sv.assessment = .ok a)
    (hid : a.getField "id" = some (.str rid))
    (hcomp : a.getField "company" = some (.str comp))
    (hind : a.getField "industry" = some (.str ind))
    (hca : a.getField "created_at" = some (.str ca))
    (hstore : getHistory store = .arr xs)
    (hxs : xs.all (fun h => !h.isNull) = true) :
    fetchData sv store =
      { data := some a,
        reportMd := guardText (getAssessmentReport sv.report),
        aiMd := guardText (getAssessmentAI sv.ai),
        error := none, loading := false,
        history := .parsed (.arr (encodeItem ⟨rid, comp, ind, ca⟩ ::
          xs.filter (fun h => jsStrictNeq (h.getField "id") (some (.str rid))))) } := by
  have hnn : a.isNull = false := isNull_false_of_getField a "id" (.str rid) hid
  have hsum : jsSummaryOf a = some (toJsSummary ⟨rid, comp, ind, ca⟩) := by
    simp [jsSummaryOf, hnn, hid, hcomp, hind, hca, toJsSummary]
  have hfil := jsFilter_of_no_null (some (.str rid)) xs hxs
  have hpr : (toJsSummary (⟨rid, comp, ind, ca⟩ : HistoryItem)).id =
      some (.str rid) := rfl
  have hhist : addToHistoryJs (toJsSummary ⟨rid, comp, ind, ca⟩) store =
      some (.parsed (.arr (encodeItem ⟨rid, comp, ind, ca⟩ ::
        xs.filter (fun h => jsStrictNeq (h.getField "id") (some (.str rid)))))) := by
    simp only [addToHistoryJs, hstore, hpr, hfil, encodeJsSummary_toJsSummary]
  simp [fetchData, hok, hsum, hhist]

/-- C3: when the canonical fetch succeeds with a summary-shaped record
(over a persisted history list of non-null entries), each auxiliary
fetch is guarded independently: a rejected slot is replaced by the
empty string for that slot only, a resolved slot is delivered
unchanged, the overall orchestration still succeeds with the canonical
record and no error, and a history entry for the record is still
recorded at the front. -/
theorem C3_aux_isolation (sv : ServerOutcomes) (store : StoredValue) (a : Json)
    (rid comp ind ca : String) (xs : List Json)
    (hok : getAssessment sv.assessment = .ok a)
    (hid : a.getField "id" = some (.str rid))
    (hcomp : a.getField "company" = some (.str comp))
    (hind : a.getField "industry" = some (.str ind))
    (hca : a.getField "created_at" = some (.str ca))
    (hstore : getHistory store = .arr xs)
    (hxs : xs.all (fun h => !h.isNull) = true) :
    (fetchData sv store).data = some a ∧
    (fetchData sv store).error = none ∧
    (∀ er, getAssessmentReport sv.report = .error er →
      (fetchData sv store).reportMd = "") ∧
    (∀ u, getAssessmentReport sv.report = .ok u →
      (fetchData sv store).reportMd = u) ∧
    (∀ er, getAssessmentAI sv.ai = .error er →
      (fetchData sv store).aiMd = "") ∧
    (∀ u, getAssessmentAI sv.ai = .ok u →
      (fetchData sv store).aiMd = u) ∧
    (∃ rest, (fetchData sv store).history =
      .parsed (.arr (encodeItem ⟨rid, comp, ind, ca⟩ :: rest))) := by
  have hred := fetchData_success sv store a rid comp ind ca xs
    hok hid hcomp hind hca hstore hxs
  refine ⟨by rw [hred], by rw [hred], ?_, ?_, ?_, ?_, ?_⟩
  · intro er h
    simp [hred, guardText, h]
  · intro u h
    simp [hred, guardText, h]
  · intro er h
    simp [hred, guardText, h]
  · intro u h
    simp [hred, guardText, h]
  · exact ⟨_, by rw [hred]⟩

theorem C3_witness :
    getAssessment svReportFails.assessment = .ok sampleRecordJson ∧
    sampleRecordJson.getField "id" = some (.str "a1") ∧
    sampleRecordJson.getField "company" = some (.str "Acme") ∧
    sampleRecordJson.getField "industry" = some (.str "Tech") ∧
    sampleRecordJson.getField "created_at" = some (.str "2024-05-01") ∧
    getHistory .absent = .arr [] ∧
    (([] : List Json).all (fun h => !h.isNull) = true) ∧
    ((fetchData svReportFails .absent).data = some sampleRecordJson ∧
     (fetchData svReportFails .absent).error = none ∧
     (∀ er, getAssessmentReport svReportFails.report = .error er →
        (fetchData svReportFails .absent).reportMd = "") ∧
     (∀ u, getAssessmentReport svReportFails.report = .ok u →
        (fetchData svReportFails .absent).reportMd = u) ∧
     (∀ er, getAssessmentAI svReportFails.ai = .error er →
        (fetchData svReportFails .absent).aiMd = "") ∧
     (∀ u, getAssessmentAI svReportFails.ai = .ok u →
        (fetchData svReportFails .absent).aiMd = u) ∧
     (∃ rest, (fetchData svReportFails .absent).history =
        .parsed (.arr (encodeItem ⟨"a1", "Acme", "Tech", "2024-05-01"⟩ :: rest)))) :=
  ⟨rfl, rfl, rfl, rfl, rfl, rfl, rfl,
   C3_aux_isolation svReportFails .absent sampleRecordJson
     "a1" "Acme" "Tech" "2024-05-01" [] rfl rfl rfl rfl rfl rfl rfl⟩

/-- C1 counterexample: server outcomes where the canonical fetch and
both auxiliary fetches all succeed, yet the delivered report text is
empty — the report envelope's `report_md` field holds the empty string,
which `getAssessmentReport` returns as a success — contradicting the
claim's "both non-empty report texts". -/
theorem C1_counterexample :
    getAssessment svEmptyReport.assessment = .ok sampleRecordJson ∧
    getAssessmentReport svEmptyReport.report = .ok "" ∧
    getAssessmentAI svEmptyReport.ai = .ok "AI text" ∧
    (fetchData svEmptyReport .absent).reportMd = "" ∧
    (((fetchData svEmptyReport .absent).reportMd != "") = false) :=
  ⟨rfl, rfl, rfl, rfl, rfl⟩

/-- C1 (amended): if the canonical fetch succeeds and both auxiliary
fetches succeed, the orchestration delivers the canonical record and
exactly the two texts the auxiliary fetches returned — non-empty
precisely when those are — with no error, and the history store
afterwards holds a list with exactly one entry carrying the fetched
record's id: the fresh summary, at the front (newly added, or
moving/updating any previous entry for that id).  Stated over the
spec's data-model shapes: a summary-shaped record (the four summary
fields present as strings) and a persisted list of non-null entries. -/
theorem C1_success_record_and_history (sv : ServerOutcomes) (store : StoredValue)
    (a : Json) (s t rid comp ind ca : String) (xs : List Json)
    (h1 : getAssessment sv.assessment = .ok a)
    (h2 : getAssessmentReport sv.report = .ok s)
    (h3 : getAssessmentAI sv.ai = .ok t)
    (hid : a.getField "id" = some (.str rid))
    (hcomp : a.getField "company" = some (.str comp))
    (hind : a.getField "industry" = some (.str ind))
    (hca : a.getField "created_at" = some (.str ca))
    (hstore : getHistory store = .arr xs)
    (hxs : xs.all (fun h => !h.isNull) = true) :
    (fetchData sv store).data = some a ∧
    (fetchData sv store).reportMd = s ∧
    (fetchData sv store).aiMd = t ∧
    (fetchData sv store).error = none ∧
    (∃ ys, getHistory (fetchData sv store).history = .arr ys ∧
      ys.head? = some (encodeItem ⟨rid, comp, ind, ca⟩) ∧
      ys.countP (fun h => hasIdStr h rid) = 1) := by
  have hred := fetchData_success sv store a rid comp ind ca xs
    h1 hid hcomp hind hca hstore hxs
  refine ⟨by rw [hred], by simp [hred, guardText, h2], by simp [hred, guardText, h3],
    by rw [hred], ?_⟩
  refine ⟨encodeItem ⟨rid, comp, ind, ca⟩ ::
      xs.filter (fun h => jsStrictNeq (h.getField "id") (some (.str rid))),
    by rw [hred]; rfl, rfl, ?_⟩
  rw [List.countP_cons]
  have hhead : hasIdStr (encodeItem ⟨rid, comp, ind, ca⟩) rid = true := by
    simp [hasIdStr, getField_encodeItem_id]
  have h0 : (xs.filter
      (fun h => jsStrictNeq (h.getField "id") (some (.str rid)))).countP
      (fun h => hasIdStr h rid) = 0 := by
    rw [List.countP_eq_zero]
    intro h hmem
    have hk := (List.mem_filter.mp hmem).2
    simp [hasIdStr_false_of_jsStrictNeq h rid hk]
  simp [hhead, h0]

theorem C1_witness :
    getAssessment svAllOk.assessment = .ok sampleRecordJson ∧
    getAssessmentReport svAllOk.report = .ok "Report text" ∧
    getAssessmentAI svAllOk.ai = .ok "AI text" ∧
    sampleRecordJson.getField "id" = some (.str "a1") ∧
    sampleRecordJson.getField "company" = some (.str "Acme") ∧
    sampleRecordJson.getField "industry" = some (.str "Tech") ∧
    sampleRecordJson.getField "created_at" = some (.str "2024-05-01") ∧
    getHistory oldStore =
      .arr [encodeItem ⟨"a1", "Old Co", "Tech", "2024-01-01"⟩] ∧
    (([encodeItem ⟨"a1", "Old Co", "Tech", "2024-01-01"⟩] : List Json).all
      (fun h => !h.isNull) = true) ∧
    ((fetchData svAllOk oldStore).data = some sampleRecordJson ∧
     (fetchData svAllOk oldStore).reportMd = "Report text" ∧
     (fetchData svAllOk oldStore).aiMd = "AI text" ∧
     (fetchData svAllOk oldStore).error = none ∧
     (∃ ys, getHistory (fetchData svAllOk oldStore).history = .arr ys ∧
        ys.head? = some (encodeItem ⟨"a1", "Acme", "Tech", "2024-05-01"⟩) ∧
        ys.countP (fun h => hasIdStr h "a1") = 1)) :=
  ⟨rfl, rfl, rfl, rfl, rfl, rfl, rfl, rfl, rfl,
   C1_success_record_and_history svAllOk oldStore sampleRecordJson
     "Report text" "AI text" "a1" "Acme" "Tech" "2024-05-01"
     [encodeItem ⟨"a1", "Old Co", "Tech", "2024-01-01"⟩]
     rfl rfl rfl rfl rfl rfl rfl rfl rfl⟩

end SME
